import Mathlib

/-!
Verification of the audio-transcription endpoint of this repository
(`qcut/apps/transcription/transcription.py`).

Modelling conventions: strings are Lean `String`s, byte buffers are
`List Nat` (each entry one byte value), segment timestamps are
rationals (idealising Python floats, exact on all values the claims
mention).  External collaborators (object store, Whisper model, AES
block cipher of the `cryptography` library) are oracle fields of a
`World` record; the AES block cipher itself is an arbitrary function
parameter `E`, over which all results are proved.
-/

/-! ## Base64 (model of Python `base64.b64decode` / `b64encode`
on alphabet-only input) -/

/-- Value of one base64 alphabet character, models Python base64
decoding of a single character; `none` for characters outside the
standard alphabet. -/
def decodeChar (c : Char) : Option Nat :=
  let n := c.toNat
  if 65 ≤ n ∧ n ≤ 90 then some (n - 65)
  else if 97 ≤ n ∧ n ≤ 122 then some (n - 97 + 26)
  else if 48 ≤ n ∧ n ≤ 57 then some (n - 48 + 52)
  else if n = 43 then some 62
  else if n = 47 then some 63
  else none

/-- Standard base64 alphabet character for a 6-bit value. -/
def encodeChar (s : Nat) : Char :=
  if s < 26 then Char.ofNat (65 + s)
  else if s < 52 then Char.ofNat (97 + (s - 26))
  else if s < 62 then Char.ofNat (48 + (s - 52))
  else if s = 62 then Char.ofNat 43
  else Char.ofNat 47

/-- Base64 encoding of a byte list (with `=` padding), at the level
of character lists. -/
def b64encodeL : List Nat → List Char
  | [] => []
  | [a] => [encodeChar (a / 4), encodeChar (a % 4 * 16), '=', '=']
  | [a, b] => [encodeChar (a / 4), encodeChar (a % 4 * 16 + b / 16),
      encodeChar (b % 16 * 4), '=']
  | a :: b :: c :: rest =>
      encodeChar (a / 4) :: encodeChar (a % 4 * 16 + b / 16) ::
      encodeChar (b % 16 * 4 + c / 64) :: encodeChar (c % 64) :: b64encodeL rest

/-- Base64 decoding of a character list: groups of four characters,
`=` padding allowed only at the end, `none` on any malformed input. -/
def b64decodeL : List Char → Option (List Nat)
  | [] => some []
  | c0 :: c1 :: c2 :: c3 :: rest =>
      match decodeChar c0, decodeChar c1 with
      | some s0, some s1 =>
        if c2 = '=' then
          if c3 = '=' ∧ rest = [] then some [s0 * 4 + s1 / 16] else none
        else
          match decodeChar c2 with
          | some s2 =>
            if c3 = '=' then
              if rest = [] then some [s0 * 4 + s1 / 16, s1 % 16 * 16 + s2 / 4]
              else none
            else
              match decodeChar c3 with
              | some s3 =>
                  (b64decodeL rest).map
                    (fun tl => (s0 * 4 + s1 / 16) :: (s1 % 16 * 16 + s2 / 4) ::
                      (s2 % 4 * 64 + s3) :: tl)
              | none => none
          | none => none
      | _, _ => none
  | _ => none

/-- Base64 encoding of a byte buffer as a string. -/
def b64encode (bs : List Nat) : String := ⟨b64encodeL bs⟩

/-- Base64 decoding of a string to a byte buffer. -/
def b64decode (s : String) : Option (List Nat) := b64decodeL s.data

/-! ## AES-GCM (model of the `cryptography` library primitive used at
lines 61-89 of `transcription.py`; the AES block cipher is an
arbitrary parameter `E`, taking the key bytes and a 128-bit block) -/

/-- A block cipher: key bytes and a 128-bit input block to an output
block.  The `cryptography` library's AES is one such function. -/
def BlockCipher : Type := List Nat → Nat → Nat

/-- The GCM reduction polynomial, bit `i` holding the coefficient of
`x ^ i` of the field polynomial of GF(2^128). -/
def gcmPoly : Nat := 2 ^ 128 + 2 ^ 7 + 2 ^ 2 + 2 + 1

/-- Multiplication by `x` in GF(2^128). -/
def xtime (b : Nat) : Nat :=
  if b < 2 ^ 127 then 2 * b else (2 * b) ^^^ gcmPoly

/-- Fuelled product accumulator for GF(2^128) multiplication. -/
def gfMulAux : Nat → Nat → Nat → Nat → Nat
  | _, 0, _, acc => acc
  | 0, _, _, acc => acc
  | fuel + 1, a, b, acc =>
      gfMulAux fuel (a / 2) (xtime b) (if a % 2 = 1 then acc ^^^ b else acc)

/-- Multiplication in GF(2^128), carry-less product reduced by the GCM
polynomial (up to the library's bit-reflection convention, which no
claim depends on). -/
def gfMul (a b : Nat) : Nat := gfMulAux 128 a b 0

/-- Big-endian byte list to natural number. -/
def beBytesToNat : List Nat → Nat
  | [] => 0
  | b :: rest => b * 256 ^ rest.length + beBytesToNat rest

/-- Big-endian bytes of a natural number, fixed width `len`. -/
def natToBeBytes : Nat → Nat → List Nat
  | 0, _ => []
  | len + 1, n => n / 256 ^ len % 256 :: natToBeBytes len n

/-- Split a byte list into consecutive 16-byte chunks. -/
def chunks16 : List Nat → List (List Nat)
  | [] => []
  | a :: rest => ((a :: rest).take 16) :: chunks16 ((a :: rest).drop 16)
  termination_by l => l.length
  decreasing_by simp; omega

/-- Zero-pad a byte list up to a multiple of the block size. -/
def padBlock (l : List Nat) : List Nat :=
  l ++ List.replicate ((16 - l.length % 16) % 16) 0

/-- The GHASH fold over a block list with hash subkey `H`. -/
def ghashCore (H : Nat) (y : Nat) : List (List Nat) → Nat
  | [] => y
  | blk :: rest => ghashCore H (gfMul (y ^^^ beBytesToNat blk) H) rest

/-- The pre-counter block `J0` of GCM: `IV || 0^31 || 1` for 12-byte
nonces, a GHASH of the padded nonce otherwise. -/
def computeJ0 (E : BlockCipher) (key iv : List Nat) : List Nat :=
  if iv.length = 12 then iv ++ [0, 0, 0, 1]
  else
    natToBeBytes 16 (ghashCore (E key 0) 0
      (chunks16 (padBlock iv ++ natToBeBytes 8 0 ++ natToBeBytes 8 (iv.length * 8))))

/-- Increment the low 32 bits of a counter block. -/
def inc32 (blk : List Nat) : List Nat :=
  blk.take 12 ++ natToBeBytes 4 ((beBytesToNat (blk.drop 12) + 1) % 2 ^ 32)

/-- The CTR keystream blocks: `n` encrypted counter blocks starting at
`ctr`. -/
def ctrBlocks (E : BlockCipher) (key : List Nat) : List Nat → Nat → List (List Nat)
  | _, 0 => []
  | ctr, n + 1 =>
      natToBeBytes 16 (E key (beBytesToNat ctr)) :: ctrBlocks E key (inc32 ctr) n

/-- GCM's CTR-mode transform of a buffer (its own inverse). -/
def ctrCrypt (E : BlockCipher) (key iv data : List Nat) : List Nat :=
  let ks := (ctrBlocks E key (inc32 (computeJ0 E key iv))
      ((data.length + 15) / 16)).flatten
  List.zipWith (fun a b => a ^^^ b) data ks

/-- The GCM authentication tag (empty associated data, as in the
repository's call) for a ciphertext. -/
def gcmTag (E : BlockCipher) (key iv ciphertext : List Nat) : List Nat :=
  let H := E key 0
  let S := ghashCore H 0
    (chunks16 (padBlock ciphertext ++ natToBeBytes 8 0 ++
      natToBeBytes 8 (ciphertext.length * 8)))
  natToBeBytes 16 (E key (beBytesToNat (computeJ0 E key iv)) ^^^ S)

/-- Authenticated GCM decryption: models the library's
`Cipher(AES(key), GCM(iv, tag)).decryptor` with `update` then
`finalize`, with the library's key-size validation (in `AES`), its
IV-length and tag-length validation (in `GCM.__init__`, which accepts
only IVs of 8 to 128 bytes), and its tag comparison. -/
def gcmOpen (E : BlockCipher) (key iv ciphertext tag : List Nat) :
    Except String (List Nat) :=
  if key.length = 16 ∨ key.length = 24 ∨ key.length = 32 then
    if 8 ≤ iv.length ∧ iv.length ≤ 128 then
      if tag.length = 16 then
        if gcmTag E key iv ciphertext = tag then
          Except.ok (ctrCrypt E key iv ciphertext)
        else Except.error "InvalidTag: authentication failed"
      else Except.error "Authentication tag must be 16 bytes or longer"
    else
      Except.error "initialization_vector must be between 8 and 128 bytes (64 and 1024 bits)"
  else Except.error "Invalid key size for this algorithm"

/-- The decryption step of `transcribe_audio` (lines 61-89): base64
decode the key and IV, split the trailing 16 bytes of the fetched
buffer as the tag (Python slices `data[-16:]` / `data[:-16]`), then
authenticated-decrypt. -/
def decryptStep (E : BlockCipher) (decryption_key iv : String)
    (encrypted_data : List Nat) : Except String (List Nat) :=
  match b64decode decryption_key, b64decode iv with
  | some key_bytes, some iv_bytes =>
      let tag := encrypted_data.drop (encrypted_data.length - 16)
      let ciphertext := encrypted_data.take (encrypted_data.length - 16)
      gcmOpen E key_bytes iv_bytes ciphertext tag
  | _, _ => Except.error "binascii.Error: invalid base64-encoded string"

/-! ## Data model and pipeline of `transcribe_audio` -/

/-- The validated request body (`TranscribeRequest` at lines 6-10):
`decryption_key` and `iv` are optional, `language` defaults to
`"auto"`. -/
structure TranscribeRequest where
  filename : String
  language : String := "auto"
  decryption_key : Option String := none
  iv : Option String := none
  deriving DecidableEq

/-- One timed transcript segment.  The Python dict key `"end"` is a
Lean keyword, so the field is called `stop`; `text` stands for all
model-provided fields that `segment.copy()` preserves. -/
structure Segment where
  start : ℚ
  stop : ℚ
  text : String
  deriving DecidableEq

/-- The raw result of `model.transcribe`. -/
structure WhisperResult where
  text : String
  segments : List Segment
  language : String
  deriving DecidableEq

/-- The returned JSON object, one `Option` per key so that dicts with
different key sets (the three literal `return` dicts of the source)
are distinguishable. -/
structure Response where
  error : Option String
  text : Option String
  segments : Option (List Segment)
  language : Option String
  deriving DecidableEq

/-- Observable final state of one invocation: whether the scratch
file still exists in local storage and whether the source-object
delete was issued. -/
structure PipelineState where
  fileExists : Bool
  deleteIssued : Bool
  deriving DecidableEq

/-- The external collaborators of one invocation: the AES block
cipher, client initialisation (env lookups and `boto3.client`), the
bytes `download_file` writes into the scratch file (or the exception
it raises), `whisper.load_model`, `model.transcribe` as a function of
the language argument and the audio bytes, and `delete_object`. -/
structure World where
  E : BlockCipher
  clientInitOk : Bool
  fetched : Except String (List Nat)
  loadOk : Except String Unit
  whisper : Option String → List Nat → Except String WhisperResult
  deleteRes : Except String Unit

/-- Python truthiness of an optional string: `None` and `""` are
falsy. -/
def pyTruthy : Option String → Bool
  | none => false
  | some s => decide (s ≠ "")

/-- Python `str.lower` restricted to ASCII letters (the model of the
`language.lower()` call). -/
def pyLower (s : String) : String :=
  ⟨s.data.map (fun c => if 'A' ≤ c ∧ c ≤ 'Z' then Char.ofNat (c.toNat + 32) else c)⟩

/-- The language argument handed to `model.transcribe` (lines 96-99):
`none` means the auto-detection call `model.transcribe(temp_path)`,
`some l` means `model.transcribe(temp_path, language=l)`. -/
def langArg (language : String) : Option String :=
  if language = "auto" then none else some (pyLower language)

/-- The fixed calibration offset (line 108). -/
def SEGMENT_TIME_ADJUSTMENT_SEC : ℚ := 0.5

/-- The per-segment timestamp adjustment (lines 111-114):
`segment.copy()` with start and end shifted earlier, clamped. -/
def adjustSegment (s : Segment) : Segment :=
  { s with
    start := max 0 (s.start - SEGMENT_TIME_ADJUSTMENT_SEC),
    stop := max SEGMENT_TIME_ADJUSTMENT_SEC (s.stop - SEGMENT_TIME_ADJUSTMENT_SEC) }

/-- The validation short-circuit dict of lines 34-37: only the
`error` key is present. -/
def validationResponse : Response :=
  { error := some "Missing filename parameter",
    text := none, segments := none, language := none }

/-- The generic error dict of lines 135-140. -/
def genericErrorResponse : Response :=
  { error := some "An unexpected error occurred during transcription.",
    text := some "", segments := some [], language := some "unknown" }

/-- Fetch followed by the truthiness-gated decryption step
(lines 52-89): the audio bytes the rest of the pipeline works on, or
the first raised exception. -/
def fetchAndDecrypt (req : TranscribeRequest) (w : World) :
    Except String (List Nat) :=
  match w.fetched with
  | Except.error msg => Except.error msg
  | Except.ok bytes =>
      if pyTruthy req.decryption_key && pyTruthy req.iv then
        decryptStep w.E (req.decryption_key.getD "") (req.iv.getD "") bytes
      else Except.ok bytes

/-- The body of the inner `try` (lines 52-121): fetch, optional
decrypt, model load, transcribe, source-object delete, timestamp
adjustment, response shaping.  Returns the response or the raised
exception, paired with whether the delete call was issued. -/
def pipelineBody (req : TranscribeRequest) (w : World) :
    Except String Response × Bool :=
  match fetchAndDecrypt req w with
  | Except.error msg => (Except.error msg, false)
  | Except.ok audio =>
      match w.loadOk with
      | Except.error msg => (Except.error msg, false)
      | Except.ok _ =>
          match w.whisper (langArg req.language) audio with
          | Except.error msg => (Except.error msg, false)
          | Except.ok result =>
              match w.deleteRes with
              | Except.error msg => (Except.error msg, true)
              | Except.ok _ =>
                  (Except.ok
                    { error := none,
                      text := some result.text,
                      segments := some (result.segments.map adjustSegment),
                      language := some result.language }, true)

/-- The `finally` block of lines 123-126: remove the scratch file
when it exists. -/
def finallyCleanup (exists0 : Bool) : Bool :=
  if exists0 then false else exists0

/-- The whole endpoint body `transcribe_audio` (lines 21-140):
validation short-circuit, client initialisation, scratch-file
creation, the inner `try ... finally`, and the outer `except` mapping
every exception to the generic error dict. -/
def transcribe_audio (req : TranscribeRequest) (w : World) :
    Response × PipelineState :=
  if req.filename = "" then
    (validationResponse, { fileExists := false, deleteIssued := false })
  else if w.clientInitOk = false then
    (genericErrorResponse, { fileExists := false, deleteIssued := false })
  else
    let r := pipelineBody req w
    let afterFinally := finallyCleanup true
    match r.1 with
    | Except.ok resp =>
        (resp, { fileExists := afterFinally, deleteIssued := r.2 })
    | Except.error _ =>
        (genericErrorResponse, { fileExists := afterFinally, deleteIssued := r.2 })

/-- The inference step of an invocation succeeded: the audio was
obtained and the model returned a result. -/
def inferenceSucceeded (req : TranscribeRequest) (w : World) : Prop :=
  ∃ audio wr, fetchAndDecrypt req w = Except.ok audio ∧
    w.whisper (langArg req.language) audio = Except.ok wr

/-! ## Concrete instances used by witnesses and counterexamples -/

/-- A concrete block cipher instance (any function works for the
universally quantified results; witnesses use this one). -/
def cipher0 : BlockCipher := fun _ _ => 0

/-- A concrete model output. -/
def wrStd : WhisperResult :=
  { text := "hello world",
    segments := [{ start := 1.2, stop := 3.0, text := "hello world" }],
    language := "en" }

/-- A world in which every external step succeeds. -/
def wOk : World :=
  { E := cipher0, clientInitOk := true, fetched := Except.ok [1, 2, 3],
    loadOk := Except.ok (), whisper := fun _ _ => Except.ok wrStd,
    deleteRes := Except.ok () }

/-- A world identical to `wOk` except that `delete_object` raises. -/
def wDelFail : World := { wOk with deleteRes := Except.error "AccessDenied" }

/-- A world identical to `wOk` except that the download raises. -/
def wFetchFail : World := { wOk with fetched := Except.error "404 NoSuchKey" }

/-- A plain request without encryption. -/
def reqStd : TranscribeRequest := { filename := "audio.wav" }

/-- A request with an empty filename. -/
def reqNoName : TranscribeRequest := { filename := "" }

/-- A request whose decryption key is supplied but empty. -/
def reqEmptyKey : TranscribeRequest :=
  { filename := "audio.wav", decryption_key := some "", iv := some "QUJDREVGR0hJSktM" }

/-- A complete transcript result dict: no `error` key, all of `text`,
`segments` and `language` present. -/
def isTranscriptResult (r : Response) : Prop :=
  r.error = none ∧ r.text ≠ none ∧ r.segments ≠ none ∧ r.language ≠ none

/-- A complete error result dict: an `error` key plus the fixed
defaults for the other three keys. -/
def isErrorResult (r : Response) : Prop :=
  r.error ≠ none ∧ r.text = some "" ∧ r.segments = some [] ∧
    r.language = some "unknown"

instance (r : Response) : Decidable (isTranscriptResult r) := by
  unfold isTranscriptResult
  infer_instance

instance (r : Response) : Decidable (isErrorResult r) := by
  unfold isErrorResult
  infer_instance

/-- How many of the three return shapes of the source a response
matches: complete transcript result, complete error result, or the
bare validation dict. -/
def responseShapeCount (r : Response) : Nat :=
  (if isTranscriptResult r then 1 else 0) +
    (if isErrorResult r then 1 else 0) +
    (if r = validationResponse then 1 else 0)

/-! ## Proofs: base64 round trip -/

theorem decodeChar_encodeChar : ∀ s < 64, decodeChar (encodeChar s) = some s := by
  decide

theorem encodeChar_ne_pad : ∀ s < 64, encodeChar s ≠ '=' := by
  decide

theorem b64L_roundtrip : ∀ bs : List Nat, (∀ b ∈ bs, b < 256) →
    b64decodeL (b64encodeL bs) = some bs := by
  intro bs
  induction bs using b64encodeL.induct with
  | case1 =>
      intro _
      simp [b64encodeL, b64decodeL]
  | case2 a =>
      intro h
      have ha : a < 256 := h a (by simp)
      have h0 : decodeChar (encodeChar (a / 4)) = some (a / 4) :=
        decodeChar_encodeChar _ (by omega)
      have h1 : decodeChar (encodeChar (a % 4 * 16)) = some (a % 4 * 16) :=
        decodeChar_encodeChar _ (by omega)
      simp [b64encodeL, b64decodeL, h0, h1]
      omega
  | case3 a b =>
      intro h
      have ha : a < 256 := h a (by simp)
      have hb : b < 256 := h b (by simp)
      have h0 : decodeChar (encodeChar (a / 4)) = some (a / 4) :=
        decodeChar_encodeChar _ (by omega)
      have h1 : decodeChar (encodeChar (a % 4 * 16 + b / 16)) =
          some (a % 4 * 16 + b / 16) := decodeChar_encodeChar _ (by omega)
      have h2 : decodeChar (encodeChar (b % 16 * 4)) = some (b % 16 * 4) :=
        decodeChar_encodeChar _ (by omega)
      have hne : encodeChar (a % 4 * 16 + b / 16) ≠ '=' := by
        have := encodeChar_ne_pad (a % 4 * 16 + b / 16) (by omega)
        exact this
      have hne2 : encodeChar (b % 16 * 4) ≠ '=' := by
        exact encodeChar_ne_pad _ (by omega)
      simp [b64encodeL, b64decodeL, h0, h1, h2, hne2]
      constructor
      · omega
      · omega
  | case4 a b c rest ih =>
      intro h
      have ha : a < 256 := h a (by simp)
      have hb : b < 256 := h b (by simp)
      have hc : c < 256 := h c (by simp)
      have hrest : ∀ x ∈ rest, x < 256 := by
        intro x hx
        exact h x (by simp [hx])
      have h0 : decodeChar (encodeChar (a / 4)) = some (a / 4) :=
        decodeChar_encodeChar _ (by omega)
      have h1 : decodeChar (encodeChar (a % 4 * 16 + b / 16)) =
          some (a % 4 * 16 + b / 16) := decodeChar_encodeChar _ (by omega)
      have h2 : decodeChar (encodeChar (b % 16 * 4 + c / 64)) =
          some (b % 16 * 4 + c / 64) := decodeChar_encodeChar _ (by omega)
      have h3 : decodeChar (encodeChar (c % 64)) = some (c % 64) :=
        decodeChar_encodeChar _ (by omega)
      have hne2 : encodeChar (b % 16 * 4 + c / 64) ≠ '=' :=
        encodeChar_ne_pad _ (by omega)
      have hne3 : encodeChar (c % 64) ≠ '=' :=
        encodeChar_ne_pad _ (by omega)
      simp [b64encodeL, b64decodeL, h0, h1, h2, h3, hne2, hne3, ih hrest]
      refine ⟨by omega, by omega, by omega⟩

theorem b64_roundtrip (bs : List Nat) (h : ∀ b ∈ bs, b < 256) :
    b64decode (b64encode bs) = some bs := by
  simpa [b64decode, b64encode] using b64L_roundtrip bs h


/-! ## Proofs: CTR involution and the GCM round trip -/

theorem length_natToBeBytes : ∀ len n, (natToBeBytes len n).length = len := by
  intro len
  induction len with
  | zero => intro n; rfl
  | succ k ih => intro n; simp [natToBeBytes, ih]

theorem length_gcmTag (E : BlockCipher) (key iv ct : List Nat) :
    (gcmTag E key iv ct).length = 16 := by
  simp [gcmTag, length_natToBeBytes]

/-- C1: for every invocation, the scratch file is absent from local
storage by the time the invocation completes, regardless of whether it
ends in a transcript result or an error result. -/
theorem c1_scratch_file_deleted (req : TranscribeRequest) (w : World) :
    (transcribe_audio req w).2.fileExists = false := by
  simp only [transcribe_audio]
  split
  · rfl
  · split
    · rfl
    · split <;> rfl

/-- C5: every exception raised inside the fetch/decrypt/inference/
cleanup boundary yields exactly the fixed generic error dict,
independent of the exception's message, so no internal detail ever
reaches the response payload. -/
theorem c5_generic_error_only (req : TranscribeRequest) (w : World) (msg : String)
    (hname : req.filename ≠ "") (hinit : w.clientInitOk = true)
    (herr : (pipelineBody req w).1 = Except.error msg) :
    (transcribe_audio req w).1 = genericErrorResponse := by
  simp only [transcribe_audio, if_neg hname]
  have hninit : ¬ (w.clientInitOk = false) := by simp [hinit]
  rw [if_neg hninit]
  simp only [herr]

/-- C10: a decryption key or IV that is supplied but empty makes the
truthiness gate skip the decryption step entirely, so the fetched
bytes flow on to transcription unchanged instead of raising a
decryption error. -/
theorem c10_empty_key_skips_decryption (req : TranscribeRequest) (w : World)
    (h : req.decryption_key = some "" ∨ req.iv = some "") :
    fetchAndDecrypt req w = w.fetched := by
  have hgate : (pyTruthy req.decryption_key && pyTruthy req.iv) = false := by
    rcases h with h | h <;> simp [h, pyTruthy]
  rw [fetchAndDecrypt]
  rcases hf : w.fetched with msg | bytes <;> simp [hgate]

theorem transcribe_audio_success (req : TranscribeRequest) (w : World)
    (audio : List Nat) (wr : WhisperResult)
    (hname : req.filename ≠ "") (hinit : w.clientInitOk = true)
    (hfd : fetchAndDecrypt req w = Except.ok audio)
    (hload : w.loadOk = Except.ok ())
    (hwh : w.whisper (langArg req.language) audio = Except.ok wr)
    (hdel : w.deleteRes = Except.ok ()) :
    transcribe_audio req w =
      ({ error := none, text := some wr.text,
         segments := some (wr.segments.map adjustSegment),
         language := some wr.language },
       { fileExists := false, deleteIssued := true }) := by
  have hpb : pipelineBody req w =
      (Except.ok ({ error := none, text := some wr.text,
                    segments := some (wr.segments.map adjustSegment),
                    language := some wr.language } : Response), true) := by
    simp only [pipelineBody, hfd, hload, hwh, hdel]
  have hninit : ¬ (w.clientInitOk = false) := by simp [hinit]
  simp only [transcribe_audio, if_neg hname, if_neg hninit, hpb]
  rfl

/-- C3: every segment of every successful response is the model's
segment with start moved to max(0, start - 0.5) and end to
max(0.5, end - 0.5); in particular 1.2/3.0 becomes 0.7/2.5 and
0.2/0.4 becomes 0/0.5. -/
theorem c3_timestamp_adjustment :
    (∀ s : Segment, (adjustSegment s).start = max 0 (s.start - 0.5) ∧
        (adjustSegment s).stop = max 0.5 (s.stop - 0.5)) ∧
    adjustSegment { start := 1.2, stop := 3.0, text := "a" } =
      { start := 0.7, stop := 2.5, text := "a" } ∧
    adjustSegment { start := 0.2, stop := 0.4, text := "b" } =
      { start := 0, stop := 0.5, text := "b" } ∧
    (∀ (req : TranscribeRequest) (w : World) (audio : List Nat) (wr : WhisperResult),
      req.filename ≠ "" → w.clientInitOk = true →
      fetchAndDecrypt req w = Except.ok audio →
      w.loadOk = Except.ok () →
      w.whisper (langArg req.language) audio = Except.ok wr →
      w.deleteRes = Except.ok () →
      (transcribe_audio req w).1.segments = some (wr.segments.map adjustSegment)) := by
  refine ⟨fun s => ⟨rfl, rfl⟩, ?_, ?_, ?_⟩
  · simp only [adjustSegment, SEGMENT_TIME_ADJUSTMENT_SEC, Segment.mk.injEq]
    refine ⟨?_, ?_, trivial⟩
    · rw [max_eq_right (by norm_num : (0 : ℚ) ≤ 1.2 - 0.5)]
      norm_num
    · rw [max_eq_right (by norm_num : (0.5 : ℚ) ≤ 3.0 - 0.5)]
      norm_num
  · simp only [adjustSegment, SEGMENT_TIME_ADJUSTMENT_SEC, Segment.mk.injEq]
    refine ⟨?_, ?_, trivial⟩
    · rw [max_eq_left (by norm_num : (0.2 : ℚ) - 0.5 ≤ 0)]
    · rw [max_eq_left (by norm_num : (0.4 : ℚ) - 0.5 ≤ 0.5)]
  · intro req w audio wr hname hinit hfd hload hwh hdel
    rw [transcribe_audio_success req w audio wr hname hinit hfd hload hwh hdel]

/-- C8: the hint "auto" (case-sensitively) selects the auto-detection
call; every other hint is lower-cased and passed as a forced language
("EN" is passed as "en"); on success paths the model's answer at that
language argument is what the response reports. -/
theorem c8_language_routing :
    langArg "auto" = none ∧
    (∀ s : String, s ≠ "auto" → langArg s = some (pyLower s)) ∧
    langArg "EN" = some "en" ∧
    (∀ (req : TranscribeRequest) (w : World) (audio : List Nat) (wr : WhisperResult),
      req.filename ≠ "" → w.clientInitOk = true →
      fetchAndDecrypt req w = Except.ok audio →
      w.loadOk = Except.ok () →
      w.whisper (langArg req.language) audio = Except.ok wr →
      w.deleteRes = Except.ok () →
      (transcribe_audio req w).1.language = some wr.language) := by
  refine ⟨rfl, fun s hs => ?_, by decide, ?_⟩
  · simp [langArg, hs]
  · intro req w audio wr hname hinit hfd hload hwh hdel
    rw [transcribe_audio_success req w audio wr hname hinit hfd hload hwh hdel]

/-- C9 counterexample: the negation of the claim — no original segment
with start ≤ end, however short, is mapped by the adjustment to a
segment with end < start. -/
theorem c9_counterexample :
    ¬ ∃ s : Segment, s.start ≤ s.stop ∧ s.stop - s.start < 0.5 ∧
      (adjustSegment s).stop < (adjustSegment s).start := by
  rintro ⟨s, hle, _, hlt⟩
  have h1 : (adjustSegment s).start = max 0 (s.start - 0.5) := rfl
  have h2 : (adjustSegment s).stop = max 0.5 (s.stop - 0.5) := rfl
  rw [h1, h2] at hlt
  have hmono : max (0 : ℚ) (s.start - 0.5) ≤ max 0.5 (s.stop - 0.5) :=
    max_le_max (by norm_num) (by linarith)
  exact absurd hlt (not_lt.mpr hmono)

/-- C9 (amended): for every original segment with start ≤ end, the
adjusted segment still satisfies start ≤ end — the absolute floor on
the adjusted end can never invert the ordering, not even for segments
shorter than half a second. -/
theorem c9_no_inversion (s : Segment) (h : s.start ≤ s.stop) :
    (adjustSegment s).start ≤ (adjustSegment s).stop := by
  have h1 : (adjustSegment s).start = max 0 (s.start - 0.5) := rfl
  have h2 : (adjustSegment s).stop = max 0.5 (s.stop - 0.5) := rfl
  rw [h1, h2]
  exact max_le_max (by norm_num) (by linarith)

theorem pipelineBody_ok_shape (req : TranscribeRequest) (w : World) (resp : Response)
    (h : (pipelineBody req w).1 = Except.ok resp) :
    ∃ wr : WhisperResult, resp =
      { error := none, text := some wr.text,
        segments := some (wr.segments.map adjustSegment),
        language := some wr.language } := by
  rcases hfd : fetchAndDecrypt req w with msg | audio
  · have hpb : pipelineBody req w = (Except.error msg, false) := by
      simp only [pipelineBody, hfd]
    rw [hpb] at h
    simp at h
  · rcases hld : w.loadOk with lmsg | u
    · have hpb : pipelineBody req w = (Except.error lmsg, false) := by
        simp only [pipelineBody, hfd, hld]
      rw [hpb] at h
      simp at h
    · rcases hwh : w.whisper (langArg req.language) audio with wmsg | wr
      · have hpb : pipelineBody req w = (Except.error wmsg, false) := by
          simp only [pipelineBody, hfd, hld, hwh]
        rw [hpb] at h
        simp at h
      · rcases hdel : w.deleteRes with dmsg | du
        · have hpb : pipelineBody req w = (Except.error dmsg, true) := by
            simp only [pipelineBody, hfd, hld, hwh, hdel]
          rw [hpb] at h
          simp at h
        · have hpb : pipelineBody req w =
              (Except.ok ({ error := none, text := some wr.text,
                            segments := some (wr.segments.map adjustSegment),
                            language := some wr.language } : Response), true) := by
            simp only [pipelineBody, hfd, hld, hwh, hdel]
          rw [hpb] at h
          simp only [Except.ok.injEq] at h
          exact ⟨wr, h.symm⟩

theorem pipelineBody_ok_delete (req : TranscribeRequest) (w : World) (resp : Response)
    (h : (pipelineBody req w).1 = Except.ok resp) : w.deleteRes = Except.ok () := by
  rcases hfd : fetchAndDecrypt req w with msg | audio
  · have hpb : pipelineBody req w = (Except.error msg, false) := by
      simp only [pipelineBody, hfd]
    rw [hpb] at h
    simp at h
  · rcases hld : w.loadOk with lmsg | u
    · have hpb : pipelineBody req w = (Except.error lmsg, false) := by
        simp only [pipelineBody, hfd, hld]
      rw [hpb] at h
      simp at h
    · rcases hwh : w.whisper (langArg req.language) audio with wmsg | wr
      · have hpb : pipelineBody req w = (Except.error wmsg, false) := by
          simp only [pipelineBody, hfd, hld, hwh]
        rw [hpb] at h
        simp at h
      · rcases hdel : w.deleteRes with dmsg | du
        · have hpb : pipelineBody req w = (Except.error dmsg, true) := by
            simp only [pipelineBody, hfd, hld, hwh, hdel]
          rw [hpb] at h
          simp at h
        · cases du
          rfl

theorem pipelineBody_deleteIssued (req : TranscribeRequest) (w : World)
    (h : (pipelineBody req w).2 = true) : inferenceSucceeded req w := by
  rcases hfd : fetchAndDecrypt req w with msg | audio
  · have hpb : pipelineBody req w = (Except.error msg, false) := by
      simp only [pipelineBody, hfd]
    rw [hpb] at h
    simp at h
  · rcases hld : w.loadOk with lmsg | u
    · have hpb : pipelineBody req w = (Except.error lmsg, false) := by
        simp only [pipelineBody, hfd, hld]
      rw [hpb] at h
      simp at h
    · rcases hwh : w.whisper (langArg req.language) audio with wmsg | wr
      · have hpb : pipelineBody req w = (Except.error wmsg, false) := by
          simp only [pipelineBody, hfd, hld, hwh]
        rw [hpb] at h
        simp at h
      · exact ⟨audio, wr, hfd, hwh⟩

theorem deleteIssued_pipelineBody (req : TranscribeRequest) (w : World)
    (h : (transcribe_audio req w).2.deleteIssued = true) :
    (pipelineBody req w).2 = true := by
  simp only [transcribe_audio] at h
  split at h
  · simp at h
  · split at h
    · simp at h
    · split at h
      · simpa using h
      · simpa using h

/-- C4 counterexample: with an empty filename the returned dict holds
only the `error` key, so it is neither a complete transcript result
nor a complete error result. -/
theorem c4_counterexample :
    (transcribe_audio reqNoName wOk).1 = validationResponse ∧
      ¬ (isTranscriptResult (transcribe_audio reqNoName wOk).1 ∨
         isErrorResult (transcribe_audio reqNoName wOk).1) := by
  constructor
  · rfl
  · decide

/-- C4 (amended): every invocation returns exactly one of three dict
shapes: a complete transcript result, a complete error result, or the
bare validation dict that carries only the error key. -/
theorem c4_response_shape (req : TranscribeRequest) (w : World) :
    responseShapeCount (transcribe_audio req w).1 = 1 := by
  have hval : responseShapeCount validationResponse = 1 := by decide
  have hgen : responseShapeCount genericErrorResponse = 1 := by decide
  simp only [transcribe_audio]
  split
  · exact hval
  · split
    · exact hgen
    · split
      · next resp heq =>
          obtain ⟨wr, rfl⟩ := pipelineBody_ok_shape req w resp heq
          simp [responseShapeCount, isTranscriptResult, isErrorResult,
            validationResponse, Response.mk.injEq]
      · exact hgen

/-- C6 counterexample: in a world where fetch, inference and cleanup
all succeed but the source-object delete raises, the delete was issued
and yet the caller receives the generic error dict, not the
transcript — deletion is not best-effort. -/
theorem c6_counterexample :
    (transcribe_audio reqStd wDelFail).1 = genericErrorResponse ∧
      (transcribe_audio reqStd wDelFail).2.deleteIssued = true := by
  constructor
  · rfl
  · rfl

/-- C6 (amended): the source-object delete is issued only when
inference completed without error, but it is not best-effort: whenever
the delete call raises, the invocation answers with an error dict,
never with the successful transcript. -/
theorem c6_delete_only_on_success (req : TranscribeRequest) (w : World) :
    ((transcribe_audio req w).2.deleteIssued = true → inferenceSucceeded req w) ∧
    (∀ msg, w.deleteRes = Except.error msg →
      ((transcribe_audio req w).1.error).isSome = true) := by
  constructor
  · intro h
    exact pipelineBody_deleteIssued req w (deleteIssued_pipelineBody req w h)
  · intro msg hmsg
    simp only [transcribe_audio]
    split
    · rfl
    · split
      · rfl
      · split
        · next resp heq =>
            exfalso
            have hok := pipelineBody_ok_delete req w resp heq
            rw [hmsg] at hok
            exact Except.noConfusion hok
        · rfl

theorem gcmOpen_invalid_key (E : BlockCipher) (key iv ct tag : List Nat)
    (h : ¬ (key.length = 16 ∨ key.length = 24 ∨ key.length = 32)) :
    gcmOpen E key iv ct tag = Except.error "Invalid key size for this algorithm" := by
  simp only [gcmOpen, if_neg h]

theorem decryptStep_short_buffer (E : BlockCipher) (K N data : List Nat)
    (hkey : K.length = 16 ∨ K.length = 24 ∨ K.length = 32)
    (hiv : 8 ≤ N.length ∧ N.length ≤ 128)
    (hKb : ∀ b ∈ K, b < 256) (hNb : ∀ b ∈ N, b < 256)
    (hshort : data.length < 16) :
    decryptStep E (b64encode K) (b64encode N) data =
      Except.error "Authentication tag must be 16 bytes or longer" := by
  simp only [decryptStep, b64_roundtrip K hKb, b64_roundtrip N hNb]
  have hd : data.length - 16 = 0 := by omega
  rw [hd, List.drop_zero, List.take_zero]
  simp only [gcmOpen, if_pos hkey, if_pos hiv]
  rw [if_neg (by omega : ¬ data.length = 16)]

theorem xor_pow_ne (b k : Nat) : b ^^^ 2 ^ k ≠ b := by
  intro he
  have h2 : b ^^^ (b ^^^ 2 ^ k) = b ^^^ b := by rw [he]
  rw [← Nat.xor_assoc, Nat.xor_self, Nat.zero_xor] at h2
  have := Nat.pos_pow_of_pos k (by omega : 0 < 2)
  omega

theorem gcmOpen_tag_flip (E : BlockCipher) (key iv ct tag : List Nat) (i k : Nat)
    (hkey : key.length = 16 ∨ key.length = 24 ∨ key.length = 32)
    (hiv : 8 ≤ iv.length ∧ iv.length ≤ 128)
    (hi : i < 16)
    (htag : gcmTag E key iv ct = tag) :
    gcmOpen E key iv ct (tag.set i (tag.getD i 0 ^^^ 2 ^ k)) =
      Except.error "InvalidTag: authentication failed" := by
  have hlen : tag.length = 16 := htag ▸ length_gcmTag E key iv ct
  have hset_len : (tag.set i (tag.getD i 0 ^^^ 2 ^ k)).length = 16 := by
    rw [List.length_set]
    exact hlen
  have hne : gcmTag E key iv ct ≠ tag.set i (tag.getD i 0 ^^^ 2 ^ k) := by
    rw [htag]
    intro heq
    have h1 : (tag.set i (tag.getD i 0 ^^^ 2 ^ k))[i]? =
        some (tag.getD i 0 ^^^ 2 ^ k) :=
      List.getElem?_set_eq_of_lt _ (by omega)
    rw [← heq] at h1
    have h2 : tag.getD i 0 = tag.getD i 0 ^^^ 2 ^ k := by
      conv_lhs => rw [List.getD_eq_getElem?_getD, h1]
      rfl
    exact xor_pow_ne (tag.getD i 0) k h2.symm
  unfold gcmOpen
  rw [if_pos hkey, if_pos hiv, if_pos hset_len, if_neg hne]

theorem gfMulAux_zero_right : ∀ fuel a acc, gfMulAux fuel a 0 acc = acc := by
  intro fuel
  induction fuel with
  | zero =>
      intro a acc
      cases a <;> rfl
  | succ f ih =>
      intro a acc
      cases a with
      | zero => rfl
      | succ a' =>
          have hstep : gfMulAux (f + 1) (a' + 1) 0 acc =
              gfMulAux f ((a' + 1) / 2) (xtime 0)
                (if (a' + 1) % 2 = 1 then acc ^^^ 0 else acc) := rfl
          rw [hstep]
          have hx : xtime 0 = 0 := by norm_num [xtime]
          have hacc : (if (a' + 1) % 2 = 1 then acc ^^^ 0 else acc) = acc := by
            split <;> simp
          rw [hx, hacc, ih]

theorem ghashCore_subkey_zero : ∀ blocks y, gfMul y 0 = y → y = 0 →
    ghashCore 0 y blocks = 0 := by
  intro blocks
  induction blocks with
  | nil => intro y _ hy; simpa [ghashCore] using hy
  | cons blk rest ih =>
      intro y _ hy
      subst hy
      show ghashCore 0 (gfMul (0 ^^^ beBytesToNat blk) 0) rest = 0
      rw [show gfMul (0 ^^^ beBytesToNat blk) 0 = 0 from
        gfMulAux_zero_right 128 _ 0]
      exact ih 0 (gfMulAux_zero_right 128 0 0) rfl

/-- With a zero GCM hash subkey, the authentication tag does not
depend on the ciphertext at all: every tampered ciphertext then
carries a valid tag, which is why single-bit ciphertext flips are
detected exactly when the hash subkey `E key 0` is nonzero — an
unprovable property of the external AES permutation. -/
theorem gcmTag_subkey_zero (E : BlockCipher) (key iv : List Nat)
    (h : E key 0 = 0) (ct ct' : List Nat) :
    gcmTag E key iv ct = gcmTag E key iv ct' := by
  show natToBeBytes 16 (E key (beBytesToNat (computeJ0 E key iv)) ^^^
      ghashCore (E key 0) 0 _) = natToBeBytes 16 (E key (beBytesToNat (computeJ0 E key iv)) ^^^
      ghashCore (E key 0) 0 _)
  rw [h]
  rw [ghashCore_subkey_zero _ 0 (gfMulAux_zero_right 128 0 0) rfl,
    ghashCore_subkey_zero _ 0 (gfMulAux_zero_right 128 0 0) rfl]

theorem gcmOpen_subkey_zero_accepts (E : BlockCipher) (key iv ct ct' : List Nat)
    (h : E key 0 = 0)
    (hkey : key.length = 16 ∨ key.length = 24 ∨ key.length = 32)
    (hiv : 8 ≤ iv.length ∧ iv.length ≤ 128) :
    gcmOpen E key iv ct' (gcmTag E key iv ct) =
      Except.ok (ctrCrypt E key iv ct') := by
  unfold gcmOpen
  rw [if_pos hkey, if_pos hiv, if_pos (length_gcmTag E key iv ct),
    if_pos (gcmTag_subkey_zero E key iv h ct' ct)]

/-! ## Witnesses -/

/-- Concrete instance of C3 on a successful invocation. -/
theorem c3_witness :
    (transcribe_audio reqStd wOk).1.segments =
      some (wrStd.segments.map adjustSegment) :=
  c3_timestamp_adjustment.2.2.2 reqStd wOk [1, 2, 3] wrStd (by decide) rfl rfl rfl
    rfl rfl

/-- Concrete instance of C5: a failing download produces exactly the
generic error dict. -/
theorem c5_witness :
    (transcribe_audio reqStd wFetchFail).1 = genericErrorResponse :=
  c5_generic_error_only reqStd wFetchFail "404 NoSuchKey" (by decide) rfl rfl

/-- Concrete instance of C6 (amended): with a successful pipeline the
issued delete witnesses inference success, and with a failing delete
the response is an error dict. -/
theorem c6_witness :
    inferenceSucceeded reqStd wOk ∧
      ((transcribe_audio reqStd wDelFail).1.error).isSome = true :=
  ⟨(c6_delete_only_on_success reqStd wOk).1 rfl,
   (c6_delete_only_on_success reqStd wDelFail).2 "AccessDenied" rfl⟩

/-- Concrete instance of C8: the hint "EN" is lower-cased, and a
successful invocation reports the model's language. -/
theorem c8_witness :
    langArg "EN" = some (pyLower "EN") ∧
      (transcribe_audio reqStd wOk).1.language = some wrStd.language :=
  ⟨c8_language_routing.2.1 "EN" (by decide),
   c8_language_routing.2.2.2 reqStd wOk [1, 2, 3] wrStd (by decide) rfl rfl rfl
     rfl rfl⟩

/-- Concrete instance of C9 (amended) on a segment 0.3 seconds long. -/
theorem c9_witness :
    (adjustSegment { start := 0.6, stop := 0.9, text := "s" }).start ≤
      (adjustSegment { start := 0.6, stop := 0.9, text := "s" }).stop :=
  c9_no_inversion { start := 0.6, stop := 0.9, text := "s" } (by norm_num)

/-- Concrete instance of C10: an empty decryption key skips the
decryption step and hands the fetched bytes on unchanged. -/
theorem c10_witness : fetchAndDecrypt reqEmptyKey wOk = wOk.fetched :=
  c10_empty_key_skips_decryption reqEmptyKey wOk (Or.inl rfl)
